import Mathlib

/-
Shallow embedding of src/src/const_rcc.rs (stm32f1xx-hal clock configuration
calculator).  All u32 values are modelled as Nat; the code runs in a Rust
const context, in which arithmetic overflow is a compile-time error rather
than wrapping, so the natural-number semantics is the semantics of every
defined evaluation.  The `connectivity` cargo feature is modelled as an
explicit Bool parameter; the flash-latency code (gated on the
stm32f103/stm32f101/connectivity features) is the only latency definition
in the file and is embedded as given.
-/

namespace ConstRcc

/-- Modelled from the spec: the fixed internal-oscillator frequency (HSI)
consumed as a hardware constant (`crate::rcc::HSI`), defined outside the
reviewed file; 8 MHz on this MCU family.  The theorems below depend only on
it being a fixed positive even constant. -/
def HSI : Nat := 8000000

/-- Input builder type (`ClockConfig` in const_rcc.rs). -/
structure ClockConfig where
  hse : Option Nat
  hclk : Option Nat
  pclk1 : Option Nat
  pclk2 : Option Nat
  sysclk : Option Nat
  adcclk : Option Nat
deriving DecidableEq

/-- Enumeration `flash::acr::LATENCY_A`, the wait-state selector. -/
inductive LATENCY_A where
  | WS0
  | WS1
  | WS2
deriving DecidableEq

/-- Enumeration `rcc::cfgr::PLLSRC_A`, the PLL source selector. -/
inductive PLLSRC_A where
  | HSE_DIV_PREDIV
  | HSI_DIV2
deriving DecidableEq

/-- Enumeration `rcc::cfgr::USBPRE_A`, the USB prescaler selector. -/
inductive USBPRE_A where
  | DIV1_5
  | DIV1
deriving DecidableEq

/-- Output record (`RccConfig` in const_rcc.rs). -/
structure RccConfig where
  latency : LATENCY_A
  pllmul_bits : Option Nat
  pllsrc : PLLSRC_A
  adcpre_bits : Nat
  ppre1_bits : Nat
  ppre2_bits : Nat
  hpre_bits : Nat
  usbpre : USBPRE_A
  sysclk : Nat
  hclk : Nat
  pclk1 : Nat
  pclk2 : Nat
  adcclk : Nat
  ppre1 : Nat
  ppre2 : Nat
  usbclk_valid : Bool
deriving DecidableEq

/-- Helper `const fn u32_min` (const_rcc.rs lines 227-233). -/
def u32_min (a b : Nat) : Nat :=
  if a < b then a else b

/-- Helper `const fn u32_max` (const_rcc.rs lines 235-241). -/
def u32_max (a b : Nat) : Nat :=
  if a > b then a else b

/-- Embeds `let pllsrcclk = if let Some(hse) = self.hse ... HSI / 2`
(line 95). -/
def pllsrcclk (self : ClockConfig) : Nat :=
  match self.hse with
  | some hse => hse
  | none => HSI / 2

/-- Embeds `let sysclk = if let Some(sysclk) = self.sysclk ... pllsrcclk`
(line 100). -/
def sysclk_target (self : ClockConfig) : Nat :=
  match self.sysclk with
  | some sysclk => sysclk
  | none => pllsrcclk self

/-- Embeds `let pllmul = sysclk / pllsrcclk` (line 105). -/
def pllmul_raw (self : ClockConfig) : Nat :=
  sysclk_target self / pllsrcclk self

/-- Embeds the feature-gated shadowing `let pllmul = u32_min(u32_max(pllmul, ..), ..)`
(lines 111-115): clamp to [2,16] without the connectivity feature, [4,9]
with it. -/
def pll_clamped (connectivity : Bool) (self : ClockConfig) : Nat :=
  if connectivity then u32_min (u32_max (pllmul_raw self) 4) 9
  else u32_min (u32_max (pllmul_raw self) 2) 16

/-- Embeds `let (pllmul_bits, sysclk) = if pllmul == 1 ...`
(lines 107-118).  The first component is the optional multiplier encoding,
the second the resolved system clock. -/
def pll_step (connectivity : Bool) (self : ClockConfig) : Option Nat × Nat :=
  if pllmul_raw self = 1 then
    (none, match self.hse with
           | some hse => hse
           | none => HSI)
  else
    (some (pll_clamped connectivity self - 2),
     pllsrcclk self * pll_clamped connectivity self)

/-- The match on `sysclk / hclk` inside the hpre selection (lines 121-131),
as a function of the ratio. -/
def hpre_bucket (r : Nat) : Nat :=
  if r ≤ 1 then 0b0111
  else if r = 2 then 0b1000
  else if r ≤ 5 then 0b1001
  else if r ≤ 11 then 0b1010
  else if r ≤ 39 then 0b1011
  else if r ≤ 95 then 0b1100
  else if r ≤ 191 then 0b1101
  else if r ≤ 383 then 0b1110
  else 0b1111

/-- Embeds `let hpre_bits = if let Some(hclk) = self.hclk ... else 0b0111`
(lines 120-134). -/
def hpre_bits_of (sysclk : Nat) (hclk : Option Nat) : Nat :=
  match hclk with
  | some hclk => hpre_bucket (sysclk / hclk)
  | none => 0b0111

/-- Embeds `let hclk = if hpre_bits >= 0b1100 ...`
(lines 135-139). -/
def hclk_of (sysclk hpre_bits : Nat) : Nat :=
  if 0b1100 ≤ hpre_bits then sysclk / (1 <<< (hpre_bits - 0b0110))
  else sysclk / (1 <<< (hpre_bits - 0b0111))

/-- The match on `hclk / pclk` shared by the two APB prescaler selections
(lines 142-148 and 156-162), as a function of the ratio. -/
def ppre_bucket (r : Nat) : Nat :=
  if r ≤ 1 then 0b011
  else if r = 2 then 0b100
  else if r ≤ 5 then 0b101
  else if r ≤ 11 then 0b110
  else 0b111

/-- Embeds `let ppre1_bits = if let Some(pclk1) = self.pclk1 ... else 0b011`
(lines 141-151); the same definition serves ppre2 (lines 155-165). -/
def ppre_bits_of (hclk : Nat) (pclk : Option Nat) : Nat :=
  match pclk with
  | some pclk => ppre_bucket (hclk / pclk)
  | none => 0b011

/-- Flash latency thresholds (lines 169-176). -/
def latency_of (sysclk : Nat) : LATENCY_A :=
  if sysclk ≤ 24000000 then LATENCY_A.WS0
  else if sysclk ≤ 48000000 then LATENCY_A.WS1
  else LATENCY_A.WS2

/-- Embeds `let (usbpre, usbclk_valid) = match (self.hse, pllmul_bits, sysclk)`
(lines 181-185). -/
def usb_step (hse pllmul_bits : Option Nat) (sysclk : Nat) : USBPRE_A × Bool :=
  match hse, pllmul_bits with
  | some _, some _ =>
    if sysclk = 72000000 then (USBPRE_A.DIV1_5, true)
    else if sysclk = 48000000 then (USBPRE_A.DIV1, true)
    else (USBPRE_A.DIV1, false)
  | _, _ => (USBPRE_A.DIV1, false)

/-- The match on `pclk2 / adcclk` inside the ADC prescaler selection
(lines 188-193), as a function of the ratio. -/
def adc_bucket (r : Nat) : Nat :=
  if r ≤ 2 then 0b00
  else if r ≤ 4 then 0b01
  else if r ≤ 7 then 0b10
  else 0b11

/-- Embeds `let adcpre_bits = if let Some(adcclk) = self.adcclk ... else 0b11`
(lines 187-196). -/
def adcpre_bits_of (pclk2 : Nat) (adcclk : Option Nat) : Nat :=
  match adcclk with
  | some adcclk => adc_bucket (pclk2 / adcclk)
  | none => 0b11

/-- Embeds `let pllsrc = if let Some(_) = self.hse ...`
(lines 200-204). -/
def pllsrc_of (hse : Option Nat) : PLLSRC_A :=
  match hse with
  | some _ => PLLSRC_A.HSE_DIV_PREDIV
  | none => PLLSRC_A.HSI_DIV2

/-- Embeds `pub const fn get_config(self) -> RccConfig` (lines 94-224), assembled
from the step functions above in source order. -/
def get_config (connectivity : Bool) (self : ClockConfig) : RccConfig :=
  let pllmul_bits := (pll_step connectivity self).1
  let sysclk := (pll_step connectivity self).2
  let hpre_bits := hpre_bits_of sysclk self.hclk
  let hclk := hclk_of sysclk hpre_bits
  let ppre1_bits := ppre_bits_of hclk self.pclk1
  let ppre1 := 1 <<< (ppre1_bits - 0b011)
  let pclk1 := hclk / ppre1
  let ppre2_bits := ppre_bits_of hclk self.pclk2
  let ppre2 := 1 <<< (ppre2_bits - 0b011)
  let pclk2 := hclk / ppre2
  let latency := latency_of sysclk
  let usb := usb_step self.hse pllmul_bits sysclk
  let adcpre_bits := adcpre_bits_of pclk2 self.adcclk
  let apre := (adcpre_bits + 1) <<< 1
  let adcclk := pclk2 / apre
  { latency := latency
    pllmul_bits := pllmul_bits
    pllsrc := pllsrc_of self.hse
    adcpre_bits := adcpre_bits
    ppre1_bits := ppre1_bits
    ppre2_bits := ppre2_bits
    hpre_bits := hpre_bits
    usbpre := usb.1
    sysclk := sysclk
    hclk := hclk
    pclk1 := pclk1
    pclk2 := pclk2
    adcclk := adcclk
    ppre1 := ppre1
    ppre2 := ppre2
    usbclk_valid := usb.2 }

/-! Spec-side definitions, written from the spec and claim wording, to be
compared with the source-derived definitions above. -/

/-- From the spec, Step 3: the AHB prescaler encoding as the claim's explicit
ratio buckets 0-1, 2, 3-5, 6-11, 12-39, 40-95, 96-191, 192-383, else. -/
def specAhbEncoding (r : Nat) : Nat :=
  if r ≤ 1 then 0b0111
  else if r = 2 then 0b1000
  else if r ≤ 5 then 0b1001
  else if r ≤ 11 then 0b1010
  else if r ≤ 39 then 0b1011
  else if r ≤ 95 then 0b1100
  else if r ≤ 191 then 0b1101
  else if r ≤ 383 then 0b1110
  else 0b1111

/-- From the spec, Step 3: the AHB division factor recovered from the encoded
bit pattern, with the shift offset switching at encoding 0b1100. -/
def specAhbDivisor (bits : Nat) : Nat :=
  if 0b1100 ≤ bits then 2 ^ (bits - 0b0110) else 2 ^ (bits - 0b0111)

/-- From the spec, Step 7: the ADC prescaler code as the claim's ratio
buckets 0-2, 3-4, 5-7, else. -/
def specAdcCode (r : Nat) : Nat :=
  if r ≤ 2 then 0b00
  else if r ≤ 4 then 0b01
  else if r ≤ 7 then 0b10
  else 0b11

/-- From the spec, Step 5: the three-level wait-state lookup with cutoffs
24 MHz and 48 MHz. -/
def specWaitStates (sysclk : Nat) : LATENCY_A :=
  if sysclk ≤ 24000000 then LATENCY_A.WS0
  else if sysclk ≤ 48000000 then LATENCY_A.WS1
  else LATENCY_A.WS2

/-- The fixed AHB divisor table of the spec, in increasing order. -/
def hpreTable : List Nat := [1, 2, 4, 8, 16, 64, 128, 256, 512]

/-- Distance between two naturals. -/
def natDist (a b : Nat) : Nat :=
  if a ≤ b then b - a else a - b

/-- From the claim of C5 as written: the smallest entry of the divisor table
that is greater than or equal to `r` (the table is listed in increasing
order, so the first match is the smallest). -/
def claimSmallestEntryGe (r : Nat) : Option Nat :=
  hpreTable.find? (fun e => decide (r ≤ e))

/-- Predicate: `d` is an entry of the divisor table nearest to `r`, with ties resolved
toward the larger entry. -/
def tiesUpNearest (r d : Nat) : Prop :=
  d ∈ hpreTable ∧
    ∀ e ∈ hpreTable, natDist r d < natDist r e ∨ (natDist r d = natDist r e ∧ e ≤ d)

instance (r d : Nat) : Decidable (tiesUpNearest r d) := by
  unfold tiesUpNearest
  infer_instance

/-- All frequency values present in a configuration are positive. -/
def allPresentPos (cfg : ClockConfig) : Prop :=
  (∀ x, cfg.hse = some x → 0 < x) ∧
  (∀ x, cfg.hclk = some x → 0 < x) ∧
  (∀ x, cfg.pclk1 = some x → 0 < x) ∧
  (∀ x, cfg.pclk2 = some x → 0 < x) ∧
  (∀ x, cfg.sysclk = some x → 0 < x) ∧
  (∀ x, cfg.adcclk = some x → 0 < x)

/-! Concrete configurations used by witnesses and counterexamples. -/

/-- Value of `ClockConfig::new()`: the empty configuration. -/
def emptyCfg : ClockConfig :=
  { hse := none, hclk := none, pclk1 := none, pclk2 := none,
    sysclk := none, adcclk := none }

/-- 8 MHz crystal, 72 MHz system clock target (spec example scenario 2). -/
def cfg72 : ClockConfig :=
  { hse := some 8000000, hclk := none, pclk1 := none, pclk2 := none,
    sysclk := some 72000000, adcclk := none }

/-- 8 MHz crystal, 72 MHz system clock, 9 MHz bus target (ratio 8). -/
def cfgBus : ClockConfig :=
  { hse := some 8000000, hclk := some 9000000, pclk1 := none, pclk2 := none,
    sysclk := some 72000000, adcclk := none }

/-- A configuration whose system-clock to bus-clock ratio is 5 (PLL bypassed:
40 Hz oscillator, 40 Hz system target, 8 Hz bus target). -/
def cfgRatio5 : ClockConfig :=
  { hse := some 40, hclk := some 8, pclk1 := none, pclk2 := none,
    sysclk := some 40, adcclk := none }

/-- 8 MHz crystal, 72 MHz system clock, 12 MHz ADC target (pclk2/adc = 6,
spec example scenario 4). -/
def cfgAdc6 : ClockConfig :=
  { hse := some 8000000, hclk := none, pclk1 := none, pclk2 := none,
    sysclk := some 72000000, adcclk := some 12000000 }

/-- A configuration with every field present and positive. -/
def cfgAllSet : ClockConfig :=
  { hse := some 8000000, hclk := some 72000000, pclk1 := some 36000000,
    pclk2 := some 72000000, sysclk := some 72000000, adcclk := some 12000000 }

/-! Helper lemmas shared by the claim theorems. -/

theorem get_config_pllmul_bits (c : Bool) (s : ClockConfig) :
    (get_config c s).pllmul_bits = (pll_step c s).1 := rfl

theorem get_config_sysclk (c : Bool) (s : ClockConfig) :
    (get_config c s).sysclk = (pll_step c s).2 := rfl

theorem get_config_hpre_bits (c : Bool) (s : ClockConfig) :
    (get_config c s).hpre_bits = hpre_bits_of (pll_step c s).2 s.hclk := rfl

theorem get_config_hclk (c : Bool) (s : ClockConfig) :
    (get_config c s).hclk =
      hclk_of (pll_step c s).2 (hpre_bits_of (pll_step c s).2 s.hclk) := rfl

theorem usb_step_spec (hse pb : Option Nat) (s : Nat) :
    ((usb_step hse pb s).2 = true ↔
      hse.isSome = true ∧ pb.isSome = true ∧ (s = 72000000 ∨ s = 48000000)) ∧
    ((usb_step hse pb s).1 = USBPRE_A.DIV1_5 ↔
      hse.isSome = true ∧ pb.isSome = true ∧ s = 72000000) := by
  cases hse <;> cases pb
  all_goals simp [usb_step]
  all_goals split_ifs <;> simp_all

theorem pll_clamped_range (conn : Bool) (cfg : ClockConfig) :
    (conn = false → 2 ≤ pll_clamped conn cfg ∧ pll_clamped conn cfg ≤ 16) ∧
    (conn = true → 4 ≤ pll_clamped conn cfg ∧ pll_clamped conn cfg ≤ 9) := by
  cases conn
  all_goals
    simp only [pll_clamped, u32_min, u32_max, if_true, if_false, Bool.true_eq_false,
      Bool.false_eq_true, false_implies, true_implies, and_true, true_and]
  all_goals split_ifs <;> omega

theorem hclk_of_eq (s bits : Nat) : hclk_of s bits = s / specAhbDivisor bits := by
  unfold hclk_of specAhbDivisor
  split_ifs <;> simp [Nat.shiftLeft_eq]

/-- C1: for every ClockConfig, usbclk_valid holds iff the hse field is set,
pllmul_bits is present, and the resolved sysclk is exactly 72 MHz or 48 MHz;
the DIV1_5 selector appears exactly in the 72 MHz case, and every other
combination yields usbclk_valid = false with the DIV1 selector. -/
theorem usbclk_spec (conn : Bool) (cfg : ClockConfig) :
    ((get_config conn cfg).usbclk_valid = true ↔
      cfg.hse.isSome = true ∧ (get_config conn cfg).pllmul_bits.isSome = true ∧
        ((get_config conn cfg).sysclk = 72000000 ∨
          (get_config conn cfg).sysclk = 48000000)) ∧
    ((get_config conn cfg).usbpre = USBPRE_A.DIV1_5 ↔
      cfg.hse.isSome = true ∧ (get_config conn cfg).pllmul_bits.isSome = true ∧
        (get_config conn cfg).sysclk = 72000000) ∧
    (¬(cfg.hse.isSome = true ∧ (get_config conn cfg).pllmul_bits.isSome = true ∧
        ((get_config conn cfg).sysclk = 72000000 ∨
          (get_config conn cfg).sysclk = 48000000)) →
      (get_config conn cfg).usbclk_valid = false ∧
        (get_config conn cfg).usbpre = USBPRE_A.DIV1) := by
  have h := usb_step_spec cfg.hse (pll_step conn cfg).1 (pll_step conn cfg).2
  refine ⟨h.1, h.2, fun hn => ⟨?_, ?_⟩⟩
  · cases hv : (get_config conn cfg).usbclk_valid
    · rfl
    · exact absurd (h.1.mp hv) hn
  · cases hp : (get_config conn cfg).usbpre
    · exact absurd (h.2.mp hp) (fun hc => hn ⟨hc.1, hc.2.1, Or.inl hc.2.2⟩)
    · rfl

/-- C1 witness: with an 8 MHz crystal and a 72 MHz system clock target, the
USB clock is valid with the divide-by-1.5 selector. -/
theorem usbclk_spec_witness :
    (get_config false cfg72).usbclk_valid = true ∧
      (get_config false cfg72).usbpre = USBPRE_A.DIV1_5 :=
  ⟨((usbclk_spec false cfg72).1).mpr (by decide),
   ((usbclk_spec false cfg72).2.1).mpr (by decide)⟩

/-- C2: whenever the PLL multiplier encoding is present, it is at most 14
(without the connectivity feature) or in [2,7] (with it), and the resolved
system clock is at most the PLL input frequency times the maximum clamped
multiplier (16, or 9 under connectivity). -/
theorem pllmul_bits_range (conn : Bool) (cfg : ClockConfig) (b : Nat)
    (h : (get_config conn cfg).pllmul_bits = some b) :
    (conn = false → b ≤ 14) ∧ (conn = true → 2 ≤ b ∧ b ≤ 7) ∧
    (get_config conn cfg).sysclk ≤
      pllsrcclk cfg * (if conn = true then 9 else 16) := by
  have hb : (pll_step conn cfg).1 = some b := h
  have hc := pll_clamped_range conn cfg
  have h1 : ¬pllmul_raw cfg = 1 := by
    intro h1
    unfold pll_step at hb
    rw [if_pos h1] at hb
    exact absurd hb (by simp)
  unfold pll_step at hb
  rw [if_neg h1] at hb
  simp only [Option.some.injEq] at hb
  have hs : (get_config conn cfg).sysclk = pllsrcclk cfg * pll_clamped conn cfg := by
    show (pll_step conn cfg).2 = _
    unfold pll_step
    rw [if_neg h1]
  rw [hs]
  cases conn
  · have := hc.1 rfl
    refine ⟨fun _ => by omega, fun hcon => by simp at hcon, ?_⟩
    simp only [Bool.false_eq_true, if_false]
    exact Nat.mul_le_mul_left _ this.2
  · have := hc.2 rfl
    refine ⟨fun hcon => by simp at hcon, fun _ => by omega, ?_⟩
    simp only [if_true]
    exact Nat.mul_le_mul_left _ this.2

/-- C2 witness: the 8 MHz crystal, 72 MHz target configuration has encoding
7, within range, and 72 MHz is at most 8 MHz times 16. -/
theorem pllmul_bits_range_witness :
    (get_config false cfg72).pllmul_bits = some 7 ∧
    ((false = false → 7 ≤ 14) ∧ (false = true → 2 ≤ 7 ∧ 7 ≤ 7) ∧
      (get_config false cfg72).sysclk ≤
        pllsrcclk cfg72 * (if false = true then 9 else 16)) :=
  ⟨by decide, pllmul_bits_range false cfg72 7 (by decide)⟩

/-- C4: when the raw PLL multiplier is 1, the PLL is bypassed: no multiplier
encoding is produced and the resolved system clock is the external
oscillator frequency when present, otherwise the full HSI frequency. -/
theorem pll_bypass (conn : Bool) (cfg : ClockConfig)
    (h : pllmul_raw cfg = 1) :
    (get_config conn cfg).pllmul_bits = none ∧
    (get_config conn cfg).sysclk =
      (match cfg.hse with
       | some hse => hse
       | none => HSI) := by
  constructor
  · show (pll_step conn cfg).1 = none
    unfold pll_step
    rw [if_pos h]
  · show (pll_step conn cfg).2 = _
    unfold pll_step
    rw [if_pos h]

/-- C4 witness: the empty configuration has raw multiplier 1, no encoding,
and resolved system clock equal to the full HSI frequency. -/
theorem pll_bypass_witness :
    pllmul_raw emptyCfg = 1 ∧
    ((get_config false emptyCfg).pllmul_bits = none ∧
      (get_config false emptyCfg).sysclk =
        (match emptyCfg.hse with
         | some hse => hse
         | none => HSI)) :=
  ⟨by decide, pll_bypass false emptyCfg (by decide)⟩

/-- C8: the flash wait-state selection is the pure three-level threshold
lookup on the resolved system clock with cutoffs 24 MHz and 48 MHz. -/
theorem flash_latency_spec (conn : Bool) (cfg : ClockConfig) :
    (get_config conn cfg).latency = specWaitStates ((get_config conn cfg).sysclk) := rfl

/-- C9: the resolved frequencies satisfy the integer-division derivation
chain: hclk from sysclk via the divisor recovered from hpre_bits, pclk1 and
pclk2 from hclk via the ppre factors, adcclk from pclk2 via the divisor
recovered from adcpre_bits. -/
theorem resolved_chain (conn : Bool) (cfg : ClockConfig) :
    (get_config conn cfg).hclk =
      (get_config conn cfg).sysclk / specAhbDivisor (get_config conn cfg).hpre_bits ∧
    (get_config conn cfg).pclk1 =
      (get_config conn cfg).hclk / (get_config conn cfg).ppre1 ∧
    (get_config conn cfg).pclk2 =
      (get_config conn cfg).hclk / (get_config conn cfg).ppre2 ∧
    (get_config conn cfg).adcclk =
      (get_config conn cfg).pclk2 /
        (((get_config conn cfg).adcpre_bits + 1) <<< 1) :=
  ⟨hclk_of_eq _ _, rfl, rfl, rfl⟩

/-- C3: with a bus target set, the AHB prescaler encoding is the explicit
ratio-bucket lookup of the claim on sysclk divided by the target, and the
resolved bus clock is sysclk divided by the divisor recovered from the
encoding; with no bus target the divisor is 1. -/
theorem hpre_selection (conn : Bool) (cfg : ClockConfig) :
    (∀ h, cfg.hclk = some h →
      (get_config conn cfg).hpre_bits =
        specAhbEncoding ((get_config conn cfg).sysclk / h)) ∧
    (get_config conn cfg).hclk =
      (get_config conn cfg).sysclk / specAhbDivisor (get_config conn cfg).hpre_bits ∧
    (cfg.hclk = none →
      (get_config conn cfg).hclk = (get_config conn cfg).sysclk / 1) := by
  refine ⟨fun h hh => ?_, hclk_of_eq _ _, fun hh => ?_⟩
  · show hpre_bits_of (pll_step conn cfg).2 cfg.hclk = _
    rw [hh]
    rfl
  · show hclk_of (pll_step conn cfg).2 (hpre_bits_of (pll_step conn cfg).2 cfg.hclk) = _
    rw [hh]
    rfl

/-- C3 witness: an 8 MHz crystal, 72 MHz system clock and 9 MHz bus target
give ratio 8, the bucket encoding, and bus clock 72 MHz / 8; with no bus
target the empty configuration keeps hclk = sysclk / 1. -/
theorem hpre_selection_witness :
    cfgBus.hclk = some 9000000 ∧
    (get_config false cfgBus).hpre_bits =
      specAhbEncoding ((get_config false cfgBus).sysclk / 9000000) ∧
    (get_config false emptyCfg).hclk = (get_config false emptyCfg).sysclk / 1 :=
  ⟨by decide, (hpre_selection false cfgBus).1 9000000 (by decide),
    (hpre_selection false emptyCfg).2.2 (by decide)⟩

/-- C6 (amended): an absent bus target yields AHB divisor 1, absent
peripheral targets yield APB divisor 1, and an absent ADC target yields the
maximal ADC division factor 8 (encoding 0b11), not the minimal one. -/
theorem absent_target_defaults (conn : Bool) (cfg : ClockConfig) :
    (cfg.hclk = none → (get_config conn cfg).hpre_bits = 0b0111 ∧
      (get_config conn cfg).hclk = (get_config conn cfg).sysclk) ∧
    (cfg.pclk1 = none → (get_config conn cfg).ppre1 = 1 ∧
      (get_config conn cfg).pclk1 = (get_config conn cfg).hclk) ∧
    (cfg.pclk2 = none → (get_config conn cfg).ppre2 = 1 ∧
      (get_config conn cfg).pclk2 = (get_config conn cfg).hclk) ∧
    (cfg.adcclk = none → (get_config conn cfg).adcpre_bits = 0b11 ∧
      (get_config conn cfg).adcclk = (get_config conn cfg).pclk2 / 8) := by
  refine ⟨fun hh => ⟨?_, ?_⟩, fun hh => ⟨?_, ?_⟩, fun hh => ⟨?_, ?_⟩, fun hh => ⟨?_, ?_⟩⟩
  · show hpre_bits_of (pll_step conn cfg).2 cfg.hclk = 0b0111
    rw [hh]
    rfl
  · show hclk_of (pll_step conn cfg).2 (hpre_bits_of (pll_step conn cfg).2 cfg.hclk) =
      (pll_step conn cfg).2
    rw [hh]
    show (pll_step conn cfg).2 / 1 = _
    exact Nat.div_one _
  · show 1 <<< (ppre_bits_of (get_config conn cfg).hclk cfg.pclk1 - 0b011) = 1
    rw [hh]
    rfl
  · show (get_config conn cfg).hclk /
        (1 <<< (ppre_bits_of (get_config conn cfg).hclk cfg.pclk1 - 0b011)) = _
    rw [hh]
    show (get_config conn cfg).hclk / 1 = _
    exact Nat.div_one _
  · show 1 <<< (ppre_bits_of (get_config conn cfg).hclk cfg.pclk2 - 0b011) = 1
    rw [hh]
    rfl
  · show (get_config conn cfg).hclk /
        (1 <<< (ppre_bits_of (get_config conn cfg).hclk cfg.pclk2 - 0b011)) = _
    rw [hh]
    show (get_config conn cfg).hclk / 1 = _
    exact Nat.div_one _
  · show adcpre_bits_of (get_config conn cfg).pclk2 cfg.adcclk = 0b11
    rw [hh]
    rfl
  · show (get_config conn cfg).pclk2 /
        ((adcpre_bits_of (get_config conn cfg).pclk2 cfg.adcclk + 1) <<< 1) = _
    rw [hh]
    rfl

/-- C6 witness: on the empty configuration every optional target is absent;
the AHB and APB divisors are 1 and the ADC divisor is 8. -/
theorem absent_target_defaults_witness :
    ((get_config false emptyCfg).hpre_bits = 0b0111 ∧
      (get_config false emptyCfg).hclk = (get_config false emptyCfg).sysclk) ∧
    ((get_config false emptyCfg).ppre1 = 1 ∧
      (get_config false emptyCfg).pclk1 = (get_config false emptyCfg).hclk) ∧
    ((get_config false emptyCfg).ppre2 = 1 ∧
      (get_config false emptyCfg).pclk2 = (get_config false emptyCfg).hclk) ∧
    ((get_config false emptyCfg).adcpre_bits = 0b11 ∧
      (get_config false emptyCfg).adcclk = (get_config false emptyCfg).pclk2 / 8) :=
  ⟨(absent_target_defaults false emptyCfg).1 rfl,
   (absent_target_defaults false emptyCfg).2.1 rfl,
   (absent_target_defaults false emptyCfg).2.2.1 rfl,
   (absent_target_defaults false emptyCfg).2.2.2 rfl⟩

/-- C6 counterexample: on the empty configuration the ADC target is absent,
yet the selected ADC division factor is 8 (adcclk = pclk2 / 8 = 1 MHz), not
the minimal factor 2 (which would give 4 MHz). -/
theorem absent_adc_minimal_cex :
    emptyCfg.adcclk = none ∧
    (get_config false emptyCfg).adcpre_bits = 0b11 ∧
    ((get_config false emptyCfg).adcpre_bits + 1) <<< 1 = 8 ∧
    (get_config false emptyCfg).pclk2 = 8000000 ∧
    (get_config false emptyCfg).adcclk = 1000000 ∧
    (get_config false emptyCfg).pclk2 / 2 = 4000000 ∧
    (get_config false emptyCfg).adcclk ≠ (get_config false emptyCfg).pclk2 / 2 := by
  decide

/-- C7: with an ADC target set, the ADC prescaler code is the claim's
ratio-bucket lookup on pclk2 divided by the target, the resolved ADC clock
is pclk2 divided by the divisor (code+1)<<1, and a ratio of 6 yields code 2
with divisor 6. -/
theorem adc_selection (conn : Bool) (cfg : ClockConfig) (a : Nat)
    (hh : cfg.adcclk = some a) :
    (get_config conn cfg).adcpre_bits =
      specAdcCode ((get_config conn cfg).pclk2 / a) ∧
    (get_config conn cfg).adcclk =
      (get_config conn cfg).pclk2 /
        (((get_config conn cfg).adcpre_bits + 1) <<< 1) ∧
    ((get_config conn cfg).pclk2 / a = 6 →
      (get_config conn cfg).adcpre_bits = 2 ∧
      ((get_config conn cfg).adcpre_bits + 1) <<< 1 = 6) := by
  have hb : (get_config conn cfg).adcpre_bits =
      specAdcCode ((get_config conn cfg).pclk2 / a) := by
    show adcpre_bits_of (get_config conn cfg).pclk2 cfg.adcclk = _
    rw [hh]
    rfl
  refine ⟨hb, rfl, fun h6 => ?_⟩
  rw [hb, h6]
  exact ⟨rfl, rfl⟩

/-- C7 witness: with an 8 MHz crystal, 72 MHz system clock and 12 MHz ADC
target, pclk2 is 72 MHz, the ratio is 6, the code is 2, the divisor is 6,
and the resolved ADC clock is 12 MHz. -/
theorem adc_selection_witness :
    cfgAdc6.adcclk = some 12000000 ∧
    ((get_config false cfgAdc6).adcpre_bits =
      specAdcCode ((get_config false cfgAdc6).pclk2 / 12000000) ∧
    (get_config false cfgAdc6).adcclk =
      (get_config false cfgAdc6).pclk2 /
        (((get_config false cfgAdc6).adcpre_bits + 1) <<< 1) ∧
    ((get_config false cfgAdc6).pclk2 / 12000000 = 6 →
      (get_config false cfgAdc6).adcpre_bits = 2 ∧
      ((get_config false cfgAdc6).adcpre_bits + 1) <<< 1 = 6)) :=
  ⟨by decide, adc_selection false cfgAdc6 12000000 (by decide)⟩

set_option maxRecDepth 4000 in
theorem nearest_small :
    ∀ r, r < 384 → tiesUpNearest r (specAhbDivisor (hpre_bucket r)) := by decide

theorem nearest_large (r : Nat) (hr : 384 ≤ r) :
    tiesUpNearest r (specAhbDivisor (hpre_bucket r)) := by
  have hb : hpre_bucket r = 0b1111 := by
    unfold hpre_bucket
    split_ifs <;> omega
  rw [hb]
  show tiesUpNearest r 512
  refine ⟨by decide, fun e he => ?_⟩
  simp only [hpreTable, List.mem_cons, List.not_mem_nil, or_false] at he
  unfold natDist
  rcases he with rfl | rfl | rfl | rfl | rfl | rfl | rfl | rfl | rfl <;>
    split_ifs <;> omega

/-- C5 (amended): for every configuration with a bus target, the AHB divisor
recovered from the selected encoding is the entry of the table
{1,2,4,8,16,64,128,256,512} nearest to the bus ratio sysclk / target, with
ties resolved toward the larger entry; this covers the boundary ratios
1,2,3,5,6,11,12,39,40,95,96,191,192,383,384. -/
theorem ahb_divisor_nearest (conn : Bool) (cfg : ClockConfig) (h : Nat)
    (hh : cfg.hclk = some h) :
    tiesUpNearest ((get_config conn cfg).sysclk / h)
      (specAhbDivisor (get_config conn cfg).hpre_bits) := by
  have hb : (get_config conn cfg).hpre_bits =
      hpre_bucket ((get_config conn cfg).sysclk / h) := by
    show hpre_bits_of (pll_step conn cfg).2 cfg.hclk = _
    rw [hh]
    rfl
  rw [hb]
  rcases Nat.lt_or_ge ((get_config conn cfg).sysclk / h) 384 with hr | hr
  · exact nearest_small _ hr
  · exact nearest_large _ hr

/-- C5 witness: at bus ratio 5 the selected divisor 4 is the nearest table
entry. -/
theorem ahb_divisor_nearest_witness :
    cfgRatio5.hclk = some 8 ∧
    tiesUpNearest ((get_config false cfgRatio5).sysclk / 8)
      (specAhbDivisor (get_config false cfgRatio5).hpre_bits) :=
  ⟨by decide, ahb_divisor_nearest false cfgRatio5 8 (by decide)⟩

/-- C5 counterexample: at bus ratio 5 (sysclk 40, bus target 8) the code
selects divisor 4, while the smallest table entry that is greater than or
equal to 5 is 8 — so the selected divisor is not the smallest entry ≥ the
ratio. -/
theorem ahb_divisor_smallest_ge_cex :
    cfgRatio5.hclk = some 8 ∧
    (get_config false cfgRatio5).sysclk / 8 = 5 ∧
    specAhbDivisor (get_config false cfgRatio5).hpre_bits = 4 ∧
    claimSmallestEntryGe ((get_config false cfgRatio5).sysclk / 8) = some 8 ∧
    specAhbDivisor (get_config false cfgRatio5).hpre_bits ≠ 8 := by decide

/-- C10: when every present frequency value is positive, every divisor used
by get_config is nonzero: the PLL input frequency, each present target
(the divisor of the corresponding ratio computation), and the power-of-two
or even divisors recovered from the selected encodings. -/
theorem division_totality (conn : Bool) (cfg : ClockConfig)
    (hpos : allPresentPos cfg) :
    0 < pllsrcclk cfg ∧
    (∀ x, cfg.hclk = some x → 0 < x) ∧
    (∀ x, cfg.pclk1 = some x → 0 < x) ∧
    (∀ x, cfg.pclk2 = some x → 0 < x) ∧
    (∀ x, cfg.adcclk = some x → 0 < x) ∧
    0 < 1 <<< ((get_config conn cfg).hpre_bits - 0b0110) ∧
    0 < 1 <<< ((get_config conn cfg).hpre_bits - 0b0111) ∧
    0 < (get_config conn cfg).ppre1 ∧
    0 < (get_config conn cfg).ppre2 ∧
    0 < ((get_config conn cfg).adcpre_bits + 1) <<< 1 := by
  obtain ⟨h1, h2, h3, h4, h5, h6⟩ := hpos
  refine ⟨?_, h2, h3, h4, h6, ?_, ?_, ?_, ?_, ?_⟩
  · unfold pllsrcclk
    cases hh : cfg.hse with
    | some x => exact h1 x hh
    | none => decide
  · rw [Nat.shiftLeft_eq, one_mul]
    exact pow_pos (by omega) _
  · rw [Nat.shiftLeft_eq, one_mul]
    exact pow_pos (by omega) _
  · show 0 < 1 <<< (ppre_bits_of (get_config conn cfg).hclk cfg.pclk1 - 0b011)
    rw [Nat.shiftLeft_eq, one_mul]
    exact pow_pos (by omega) _
  · show 0 < 1 <<< (ppre_bits_of (get_config conn cfg).hclk cfg.pclk2 - 0b011)
    rw [Nat.shiftLeft_eq, one_mul]
    exact pow_pos (by omega) _
  · rw [Nat.shiftLeft_eq]
    positivity

/-- C10 witness: the all-fields-set positive configuration satisfies the
positivity hypothesis, and every divisor is nonzero there. -/
theorem division_totality_witness :
    allPresentPos cfgAllSet ∧
    (0 < pllsrcclk cfgAllSet ∧
      (∀ x, cfgAllSet.hclk = some x → 0 < x) ∧
      (∀ x, cfgAllSet.pclk1 = some x → 0 < x) ∧
      (∀ x, cfgAllSet.pclk2 = some x → 0 < x) ∧
      (∀ x, cfgAllSet.adcclk = some x → 0 < x) ∧
      0 < 1 <<< ((get_config false cfgAllSet).hpre_bits - 0b0110) ∧
      0 < 1 <<< ((get_config false cfgAllSet).hpre_bits - 0b0111) ∧
      0 < (get_config false cfgAllSet).ppre1 ∧
      0 < (get_config false cfgAllSet).ppre2 ∧
      0 < ((get_config false cfgAllSet).adcpre_bits + 1) <<< 1) :=
  have hp : allPresentPos cfgAllSet :=
    ⟨fun x hx => by injection hx with h; omega,
     fun x hx => by injection hx with h; omega,
     fun x hx => by injection hx with h; omega,
     fun x hx => by injection hx with h; omega,
     fun x hx => by injection hx with h; omega,
     fun x hx => by injection hx with h; omega⟩
  ⟨hp, division_totality false cfgAllSet hp⟩

end ConstRcc
